import Mathlib

/-!
Verification of the unitech-server cart/order checkout core.

The definitions below are a shallow embedding of the JavaScript source:

* the mongoose cart schema and its virtuals (`subtotal`, `discountAmount`)
  and statics (`addItem`, `clearCart`) from `src/models/Order.js`
  (second concatenated document, lines 331-549);
* the order route handlers (`POST /api/orders`, `POST /api/orders/:id/payment`,
  `PUT /api/orders/:id/cancel`, `PUT /api/orders/:id/status`) from
  `src/unnamed/part_001`;
* the cart route handler `POST /api/cart/items` and the `updateCartPrices`
  helper from `src/routes/productRoutes.js` (cart-routes document).

Money amounts are modelled as rationals (`ℚ`), JavaScript numbers used as
counters as `ℕ`, and product stock as `ℤ` (the source applies unchecked
`$inc` updates).  Database collections are modelled as association lists
inside a `World` record; each route handler becomes a function
`World → Result × World`, where an early `return res.status(...)` in the
source corresponds to returning the input world unchanged.
-/

namespace Unitech

/-- Coupon discount type, from the `discountType` enum in the cart schema
(`src/models/Order.js` line 371-375). -/
inductive DiscountType
  | percentage
  | fixed
  deriving DecidableEq

/-- A coupon attached to a cart (`src/models/Order.js` lines 364-376). -/
structure Coupon where
  code : String
  discount : ℚ
  discountType : DiscountType
  deriving DecidableEq

/-- A cart line (`cartItemSchema`, `src/models/Order.js` lines 333-354):
product reference, quantity and the price snapshot. -/
structure CartItem where
  productId : ℕ
  quantity : ℕ
  price : ℚ
  deriving DecidableEq

/-- A user's cart (`cartSchema`, `src/models/Order.js` lines 356-405),
restricted to the fields the checkout core reads. -/
structure Cart where
  items : List CartItem
  coupon : Option Coupon
  deriving DecidableEq

/-- The `subtotal` virtual (`src/models/Order.js` lines 408-410):
`items.reduce((total, item) => total + item.price * item.quantity, 0)`. -/
def Cart.subtotal (c : Cart) : ℚ :=
  c.items.foldl (fun t i => t + i.price * (i.quantity : ℚ)) 0

/-- The `discountAmount` virtual (`src/models/Order.js` lines 413-422).
The JavaScript guard `!this.coupon || !this.coupon.discount` treats a
missing coupon and a zero discount alike. -/
def Cart.discountAmount (c : Cart) : ℚ :=
  match c.coupon with
  | none => 0
  | some cp =>
    if cp.discount = 0 then 0
    else
      match cp.discountType with
      | .percentage => c.subtotal * cp.discount / 100
      | .fixed => min cp.discount c.subtotal

/-- The totals computed by `POST /api/orders`
(`src/unnamed/part_001` lines 156-161). -/
structure Totals where
  subtotal : ℚ
  discount : ℚ
  tax : ℚ
  shipping : ℚ
  total : ℚ
  deriving DecidableEq

/-- Checkout totals computation (`src/unnamed/part_001` lines 156-161):
tax is 18% of the pre-discount subtotal, shipping is free strictly above
1000, and the total is `subtotal - discount + tax + shipping` with no
clamping. -/
def computeTotals (c : Cart) : Totals :=
  let subtotal := c.subtotal
  let discount := c.discountAmount
  let tax := subtotal * (18 / 100)
  let shipping : ℚ := if subtotal > 1000 then 0 else 100
  { subtotal := subtotal
    discount := discount
    tax := tax
    shipping := shipping
    total := subtotal - discount + tax + shipping }

/-- Concrete cart from the spec scenario: 2 units of a 600-priced product
plus 1 unit of a 50-priced product, with a 10% percentage coupon. -/
def specCart1 : Cart :=
  { items := [⟨1, 2, 600⟩, ⟨2, 1, 50⟩]
    coupon := some ⟨"SAVE10", 10, .percentage⟩ }

/-- Concrete cart from the spec scenario: subtotal 500 with a fixed
discount coupon of 2000. -/
def specCartFixed : Cart :=
  { items := [⟨1, 1, 500⟩]
    coupon := some ⟨"FLAT2000", 2000, .fixed⟩ }

/-- Cart exhibiting a negative checkout total: a percentage coupon of 200
is not capped by the `discountAmount` virtual. -/
def overCart : Cart :=
  { items := [⟨1, 1, 2000⟩]
    coupon := some ⟨"MEGA", 200, .percentage⟩ }

theorem foldl_add_map (f : CartItem → ℚ) (a : ℚ) (l : List CartItem) :
    l.foldl (fun t i => t + f i) a = a + (l.map f).sum := by
  induction l generalizing a with
  | nil => simp
  | cons x xs ih => simp [List.foldl_cons, ih (a + f x)]; ring

theorem subtotal_eq_sum (c : Cart) :
    c.subtotal = (c.items.map (fun i => i.price * (i.quantity : ℚ))).sum := by
  unfold Cart.subtotal
  rw [foldl_add_map (fun i => i.price * (i.quantity : ℚ)) 0 c.items, zero_add]

theorem specCart1_subtotal : specCart1.subtotal = 1250 := by
  norm_num [specCart1, Cart.subtotal]

theorem specCart1_discount : specCart1.discountAmount = 125 := by
  norm_num [specCart1, Cart.discountAmount, Cart.subtotal]

theorem computeTotals_specCart1 :
    computeTotals specCart1 = ⟨1250, 125, 225, 0, 1350⟩ := by
  simp only [computeTotals, specCart1_subtotal, specCart1_discount]
  norm_num [Totals.mk.injEq]

theorem specCartFixed_subtotal : specCartFixed.subtotal = 500 := by
  norm_num [specCartFixed, Cart.subtotal]

theorem specCartFixed_discount : specCartFixed.discountAmount = 500 := by
  norm_num [specCartFixed, Cart.discountAmount, Cart.subtotal]

theorem overCart_subtotal : overCart.subtotal = 2000 := by
  norm_num [overCart, Cart.subtotal]

theorem overCart_discount : overCart.discountAmount = 4000 := by
  norm_num [overCart, Cart.discountAmount, Cart.subtotal]

/-- C1: for every cart snapshot and coupon, checkout pricing computes
`subtotal = Σ priceSnapshot_i × qty_i`, `tax = subtotal × 0.18` on the
pre-discount subtotal, `shipping = 0` iff `subtotal > 1000` (else 100) and
`total = subtotal − discountAmount + tax + shipping`; on the scenario cart
(2 × 600 plus 1 × 50 with a 10% coupon) this yields subtotal 1250,
discount 125, tax 225, shipping 0, total 1350. -/
theorem checkout_totals_spec (c : Cart) :
    (computeTotals c).subtotal
        = (c.items.map (fun i => i.price * (i.quantity : ℚ))).sum ∧
    (computeTotals c).tax = c.subtotal * (18 / 100) ∧
    (computeTotals c).shipping = (if c.subtotal > 1000 then (0 : ℚ) else 100) ∧
    (computeTotals c).total
        = c.subtotal - c.discountAmount + (computeTotals c).tax
            + (computeTotals c).shipping ∧
    computeTotals specCart1 = ⟨1250, 125, 225, 0, 1350⟩ := by
  refine ⟨?_, rfl, rfl, rfl, computeTotals_specCart1⟩
  exact subtotal_eq_sum c

/-- C2: `discountAmount` is 0 with no coupon, `subtotal × discount/100`
for a percentage coupon with no cap (it can exceed the subtotal), and
`min(discount, subtotal)` for a fixed coupon; a fixed discount of 2000 on
a subtotal of 500 yields 500. -/
theorem discountAmount_spec (c : Cart) (h : 0 ≤ c.subtotal) :
    (c.coupon = none → c.discountAmount = 0) ∧
    (∀ cp, c.coupon = some cp → cp.discountType = .percentage →
        c.discountAmount = c.subtotal * cp.discount / 100) ∧
    (∀ cp, c.coupon = some cp → cp.discountType = .fixed →
        c.discountAmount = min cp.discount c.subtotal) ∧
    (∃ c' : Cart, (∃ cp, c'.coupon = some cp ∧ cp.discountType = .percentage) ∧
        c'.subtotal < c'.discountAmount) ∧
    Cart.discountAmount specCartFixed = 500 := by
  refine ⟨?_, ?_, ?_, ?_, specCartFixed_discount⟩
  · intro hc
    simp [Cart.discountAmount, hc]
  · intro cp hc hty
    simp only [Cart.discountAmount, hc]
    by_cases hz : cp.discount = 0
    · rw [if_pos hz, hz]
      norm_num
    · rw [if_neg hz, hty]
  · intro cp hc hty
    simp only [Cart.discountAmount, hc]
    by_cases hz : cp.discount = 0
    · rw [if_pos hz, hz]
      exact (min_eq_left h).symm
    · rw [if_neg hz, hty]
  · refine ⟨overCart, ⟨⟨"MEGA", 200, .percentage⟩, rfl, rfl⟩, ?_⟩
    rw [overCart_subtotal, overCart_discount]
    norm_num

theorem discountAmount_spec_witness :
    Cart.discountAmount specCartFixed = 500 :=
  (discountAmount_spec specCartFixed
    (by rw [specCartFixed_subtotal]; norm_num)).2.2.2.2

/-- C3 counterexample: the computed total is NOT clamped at zero.  On a
cart with subtotal 2000 and an (uncapped) percentage coupon of 200 the
total equals the raw formula `subtotal − discount + tax + shipping` and
is negative (−1640). -/
theorem checkout_total_negative :
    (computeTotals overCart).total < 0 ∧
    (computeTotals overCart).total
      = overCart.subtotal - overCart.discountAmount
          + (computeTotals overCart).tax + (computeTotals overCart).shipping := by
  constructor
  · show overCart.subtotal - overCart.discountAmount + overCart.subtotal * (18 / 100)
        + (if overCart.subtotal > 1000 then (0 : ℚ) else 100) < 0
    rw [overCart_subtotal, overCart_discount]
    norm_num
  · rfl

/-- C3 (amended): the code computes
`total = subtotal − discountAmount + tax + shipping` with no clamp; the
total can be negative when a percentage discount above 100 is present,
but it is non-negative for every cart with non-negative subtotal whose
percentage coupon (if any) respects the validated 0-100 range. -/
theorem checkout_total_nonneg (c : Cart) (h : 0 ≤ c.subtotal)
    (hc : ∀ cp, c.coupon = some cp → cp.discountType = .percentage →
        cp.discount ≤ 100) :
    0 ≤ (computeTotals c).total := by
  have hd : c.discountAmount ≤ c.subtotal := by
    cases hcp : c.coupon with
    | none =>
      simp only [Cart.discountAmount, hcp]
      exact h
    | some cp =>
      simp only [Cart.discountAmount, hcp]
      by_cases hz : cp.discount = 0
      · rw [if_pos hz]
        exact h
      · rw [if_neg hz]
        cases hty : cp.discountType with
        | percentage =>
          have h100 := hc cp hcp hty
          show c.subtotal * cp.discount / 100 ≤ c.subtotal
          rw [div_le_iff₀ (by norm_num : (0 : ℚ) < 100)]
          exact mul_le_mul_of_nonneg_left h100 h
        | fixed =>
          exact min_le_right _ _
  have htax : 0 ≤ c.subtotal * (18 / 100) := by positivity
  show 0 ≤ c.subtotal - c.discountAmount + c.subtotal * (18 / 100)
      + (if c.subtotal > 1000 then (0 : ℚ) else 100)
  by_cases hs : c.subtotal > 1000
  · rw [if_pos hs]
    linarith
  · rw [if_neg hs]
    linarith

theorem checkout_total_nonneg_witness :
    0 ≤ (computeTotals specCart1).total :=
  checkout_total_nonneg specCart1 (by rw [specCart1_subtotal]; norm_num)
    (fun cp hcp _ => by
      have hcpv : (⟨"SAVE10", 10, .percentage⟩ : Coupon) = cp := by
        simpa [specCart1] using hcp
      rw [← hcpv]
      norm_num)

/-! ## The persistent state and the order/cart route handlers -/

/-- Requester role, from the user model's `role` field; route handlers only
compare it against the string `admin`. -/
inductive Role
  | user
  | admin
  deriving DecidableEq

/-- The slice of the user record the order/cart handlers read
(`req.user._id` and `req.user.role`). -/
structure User where
  id : ℕ
  role : Role
  deriving DecidableEq

/-- A product, restricted to the fields the checkout core reads or writes
(`price`, `isActive`, `stock`). Stock is an integer because the source
applies unchecked `$inc` updates. -/
structure Product where
  price : ℚ
  isActive : Bool
  stock : ℤ
  deriving DecidableEq

/-- Payment methods (`paymentMethod` enum, `src/models/Order.js` line 181). -/
inductive PaymentMethod
  | card
  | upi
  | netbanking
  | cod
  | wallet
  deriving DecidableEq

/-- Payment status (`paymentStatus` enum, `src/models/Order.js` line 185). -/
inductive PaymentStatus
  | pending
  | completed
  | failed
  | refunded
  deriving DecidableEq

/-- Order status (`orderStatus` enum, `src/models/Order.js` lines 193-203;
the same nine strings appear in `validStatuses`,
`src/unnamed/part_001` lines 397-400). -/
inductive OrderStatus
  | pending
  | confirmed
  | processing
  | shipped
  | out_for_delivery
  | delivered
  | cancelled
  | returned
  | refunded
  deriving DecidableEq

/-- An order line snapshot (`orderItems`, `src/unnamed/part_001`
lines 164-170). -/
structure OrderItem where
  productId : ℕ
  quantity : ℕ
  price : ℚ
  deriving DecidableEq

/-- An order row, restricted to the fields the claims touch.  `deliveredAtSet`
models presence of the `deliveredAt` timestamp. -/
structure Order where
  id : ℕ
  userId : ℕ
  items : List OrderItem
  subtotal : ℚ
  tax : ℚ
  shipping : ℚ
  discount : ℚ
  total : ℚ
  paymentMethod : PaymentMethod
  paymentStatus : PaymentStatus
  paymentId : Option String
  orderStatus : OrderStatus
  trackingNumber : Option String
  deliveredAtSet : Bool
  deriving DecidableEq

/-- The database state the order/cart handlers read and write: products and
carts keyed by id, plus the order collection. -/
structure World where
  products : List (ℕ × Product)
  carts : List (ℕ × Cart)
  orders : List Order
  deriving DecidableEq

/-- Lookup in a product collection by id. -/
def lookupP (ps : List (ℕ × Product)) (pid : ℕ) : Option Product :=
  (ps.find? (fun pr => pr.1 == pid)).map Prod.snd

/-- Model of `Product.findById`. -/
def findProduct (w : World) (pid : ℕ) : Option Product :=
  lookupP w.products pid

/-- Model of `Cart.findOne({ user })`. -/
def findCart (w : World) (uid : ℕ) : Option Cart :=
  (w.carts.find? (fun pr => pr.1 == uid)).map Prod.snd

/-- Model of `Order.findById`. -/
def findOrder (w : World) (oid : ℕ) : Option Order :=
  w.orders.find? (fun o => o.id == oid)

/-- Overwrite the stored cart of user `uid` (a mongoose `cart.save()`). -/
def setCart (w : World) (uid : ℕ) (c : Cart) : World :=
  { w with carts := w.carts.map (fun pr => if pr.1 = uid then (uid, c) else pr) }

/-- Overwrite the stored order with id `o.id` (an `order.save()` or
`findByIdAndUpdate`). -/
def setOrder (w : World) (o : Order) : World :=
  { w with orders := w.orders.map (fun o' => if o'.id = o.id then o else o') }

/-- Model of `Product.findByIdAndUpdate(pid, { $inc: { stock: delta } })` on a
product list. -/
def adjStock (ps : List (ℕ × Product)) (pid : ℕ) (delta : ℤ) :
    List (ℕ × Product) :=
  ps.map (fun pr =>
    if pr.1 = pid then (pr.1, { pr.2 with stock := pr.2.stock + delta }) else pr)

/-- The early-return failures of `POST /api/orders`
(`src/unnamed/part_001` lines 137-153).  `productLookupFailed` models the
thrown `TypeError` (500 response) when a populated product is missing. -/
inductive CheckoutError
  | emptyCart
  | productLookupFailed (pid : ℕ)
  | productUnavailable (pid : ℕ)
  | insufficientStock (pid : ℕ)
  deriving DecidableEq

/-- The availability/stock loop of `POST /api/orders`
(`src/unnamed/part_001` lines 142-154): for each cart line, reject if the
product is inactive or its stock is below the line quantity; on success
return each line paired with its product. -/
def checkItems (w : World) : List CartItem → Except CheckoutError (List (CartItem × Product))
  | [] => .ok []
  | i :: rest =>
    match findProduct w i.productId with
    | none => .error (.productLookupFailed i.productId)
    | some p =>
      if p.isActive = false then .error (.productUnavailable i.productId)
      else if p.stock < (i.quantity : ℤ) then .error (.insufficientStock i.productId)
      else
        match checkItems w rest with
        | .error e => .error e
        | .ok l => .ok ((i, p) :: l)

/-- Model of `POST /api/orders` (`src/unnamed/part_001` lines 124-241): load the
cart, reject when empty, validate every line, compute totals, build the
order (payment status per method), save it, decrement stock per line and
clear the cart.  Early returns carry the input world unchanged.  The Stripe
intent call is modelled as succeeding; `oid` stands for the generated id. -/
def createOrder (w : World) (uid : ℕ) (pm : PaymentMethod) (oid : ℕ) :
    Option CheckoutError × World :=
  match findCart w uid with
  | none => (some .emptyCart, w)
  | some cart =>
    if cart.items.isEmpty then (some .emptyCart, w)
    else
      match checkItems w cart.items with
      | .error e => (some e, w)
      | .ok pairs =>
        let t := computeTotals cart
        let orderItems := pairs.map (fun ip =>
          ({ productId := ip.1.productId, quantity := ip.1.quantity,
             price := ip.2.price } : OrderItem))
        let pstatus :=
          match pm with
          | .card => PaymentStatus.pending
          | .cod => PaymentStatus.pending
          | _ => PaymentStatus.completed
        let o : Order :=
          { id := oid, userId := uid, items := orderItems
            subtotal := t.subtotal, tax := t.tax, shipping := t.shipping
            discount := t.discount, total := t.total
            paymentMethod := pm, paymentStatus := pstatus, paymentId := none
            orderStatus := .pending, trackingNumber := none
            deliveredAtSet := false }
        let w1 := { w with orders := w.orders ++ [o] }
        let w2 := { w1 with
          products := orderItems.foldl
            (fun ps it => adjStock ps it.productId (-(it.quantity : ℤ)))
            w1.products }
        let w3 := setCart w2 uid { items := [], coupon := none }
        (none, w3)

/-- Outcomes of `POST /api/orders/:id/payment`
(`src/unnamed/part_001` lines 254-298). -/
inductive PayResult
  | orderNotFound
  | notAuthorized
  | alreadyPaid
  | paymentSucceeded
  | paymentFailed
  deriving DecidableEq

/-- The HTTP status code each payment outcome produces in the source. -/
def payHttpStatus : PayResult → ℕ
  | .orderNotFound => 404
  | .notAuthorized => 403
  | .alreadyPaid => 400
  | .paymentSucceeded => 200
  | .paymentFailed => 400

/-- Model of `POST /api/orders/:id/payment` (`src/unnamed/part_001` lines 254-298):
load the order, check ownership, reject an already-completed payment with
a 400, then mark the payment completed when the retrieved intent has
succeeded.  `intentSucceeded` models the Stripe intent status. -/
def confirmPayment (w : World) (oid : ℕ) (requester : User) (intentId : String)
    (intentSucceeded : Bool) : PayResult × World :=
  match findOrder w oid with
  | none => (.orderNotFound, w)
  | some o =>
    if o.userId ≠ requester.id then (.notAuthorized, w)
    else if o.paymentStatus = .completed then (.alreadyPaid, w)
    else if intentSucceeded then
      (.paymentSucceeded,
        setOrder w { o with paymentStatus := .completed, paymentId := some intentId })
    else (.paymentFailed, w)

/-- Outcomes of `PUT /api/orders/:id/cancel`
(`src/unnamed/part_001` lines 304-343). -/
inductive CancelResult
  | orderNotFound
  | notAuthorized
  | cannotCancelDelivered
  | alreadyCancelled
  | cancelled
  deriving DecidableEq

/-- Model of `PUT /api/orders/:id/cancel` (`src/unnamed/part_001` lines 304-343):
load the order, check that the requester IS the owner (the role is never
consulted), reject terminal states, then set the status to `cancelled` and
restore stock for every order line. -/
def cancelOrder (w : World) (oid : ℕ) (requester : User) : CancelResult × World :=
  match findOrder w oid with
  | none => (.orderNotFound, w)
  | some o =>
    if o.userId ≠ requester.id then (.notAuthorized, w)
    else if o.orderStatus = .delivered then (.cannotCancelDelivered, w)
    else if o.orderStatus = .cancelled then (.alreadyCancelled, w)
    else
      let w1 := setOrder w { o with orderStatus := .cancelled }
      let w2 := { w1 with
        products := o.items.foldl
          (fun ps it => adjStock ps it.productId (it.quantity : ℤ))
          w1.products }
      (.cancelled, w2)

/-- Outcomes of `PUT /api/orders/:id/status`
(`src/unnamed/part_001` lines 389-428). -/
inductive UpdateStatusResult
  | adminRequired
  | orderNotFound
  | updated
  deriving DecidableEq

/-- The update document built by `PUT /api/orders/:id/status`
(`src/unnamed/part_001` lines 406-414): `orderStatus` is overwritten
unconditionally, the tracking number is stored when one is given, and
`deliveredAt` is stamped when the new status is `delivered`. -/
def applyStatusUpdate (o : Order) (newStatus : OrderStatus)
    (tracking : Option String) : Order :=
  { o with
    orderStatus := newStatus
    trackingNumber := match tracking with
      | some t => some t
      | none => o.trackingNumber
    deliveredAtSet := if newStatus = .delivered then true else o.deliveredAtSet }

/-- Model of `PUT /api/orders/:id/status` (`src/unnamed/part_001` lines 389-428):
admin only; the source checks the request string against the nine
`validStatuses`, which is modelled by taking `newStatus : OrderStatus`;
then `findByIdAndUpdate` applies `applyStatusUpdate`.  No product stock is
touched. -/
def updateStatus (w : World) (requester : User) (oid : ℕ)
    (newStatus : OrderStatus) (tracking : Option String) :
    UpdateStatusResult × World :=
  if requester.role ≠ .admin then (.adminRequired, w)
  else
    match findOrder w oid with
    | none => (.orderNotFound, w)
    | some o => (.updated, setOrder w (applyStatusUpdate o newStatus tracking))

/-- Model of `cartSchema.statics.addItem` (`src/models/Order.js` lines 454-478):
bump the quantity of the FIRST line holding `pid`, mirroring the mongoose
`find` + in-place `+=`. -/
def bumpFirst : List CartItem → ℕ → ℕ → List CartItem
  | [], _, _ => []
  | i :: rest, pid, qty =>
    if i.productId = pid then { i with quantity := i.quantity + qty } :: rest
    else i :: bumpFirst rest pid qty

/-- Model of `cartSchema.statics.addItem` (`src/models/Order.js` lines 454-478):
create the cart when missing (with a price-0 line), add to an existing
line's quantity, or push a new price-0 line. -/
def cartAddItem (w : World) (uid pid qty : ℕ) : World :=
  match findCart w uid with
  | none =>
    { w with carts := w.carts ++ [(uid, { items := [⟨pid, qty, 0⟩], coupon := none })] }
  | some cart =>
    if cart.items.any (fun i => i.productId == pid) then
      setCart w uid { cart with items := bumpFirst cart.items pid qty }
    else
      setCart w uid { cart with items := cart.items ++ [⟨pid, qty, 0⟩] }

/-- The per-line refresh of `updateCartPrices`
(`src/routes/productRoutes.js` lines 576-591): lines whose product is
active get the current price, lines whose product is inactive are dropped,
lines whose product is missing are kept as they are. -/
def refreshItems (w : World) (l : List CartItem) : List CartItem :=
  l.filterMap (fun i =>
    match findProduct w i.productId with
    | some p => if p.isActive then some { i with price := p.price } else none
    | none => some i)

/-- Model of `updateCartPrices` (`src/routes/productRoutes.js` lines 576-591)
applied to the stored cart of `uid`. -/
def updateCartPrices (w : World) (uid : ℕ) : World :=
  match findCart w uid with
  | none => w
  | some cart => setCart w uid { cart with items := refreshItems w cart.items }

/-- Outcomes of `POST /api/cart/items`
(`src/routes/productRoutes.js` lines 357-405). -/
inductive AddItemResult
  | validationFailed
  | productNotFound
  | productUnavailable
  | insufficientStock
  | added
  deriving DecidableEq

/-- Model of `POST /api/cart/items` (`src/routes/productRoutes.js` lines 357-405):
the express-validator gate bounds the REQUEST quantity to 1..10, the
product must exist, be active, and have stock at least the request
quantity; then `Cart.addItem` runs followed by `updateCartPrices`.  The
resulting line quantity is never re-checked. -/
def addItemRoute (w : World) (uid pid qty : ℕ) : AddItemResult × World :=
  if qty < 1 ∨ 10 < qty then (.validationFailed, w)
  else
    match findProduct w pid with
    | none => (.productNotFound, w)
    | some p =>
      if p.isActive = false then (.productUnavailable, w)
      else if p.stock < (qty : ℤ) then (.insufficientStock, w)
      else
        let w1 := cartAddItem w uid pid qty
        let w2 := updateCartPrices w1 uid
        (.added, w2)

/-! ## Lookup / update lemmas -/

theorem lookupP_adjStock_same (ps : List (ℕ × Product)) (pid : ℕ) (delta : ℤ) :
    lookupP (adjStock ps pid delta) pid
      = (lookupP ps pid).map (fun p => { p with stock := p.stock + delta }) := by
  induction ps with
  | nil => rfl
  | cons pr rest ih =>
    cases hb : (pr.1 == pid) with
    | true =>
      have hx : pr.1 = pid := by simpa using hb
      simp [lookupP, adjStock, List.find?_cons, hb, hx]
    | false =>
      have hx : ¬ pr.1 = pid := by simpa using hb
      simpa [lookupP, adjStock, List.find?_cons, hb, hx] using ih

theorem lookupP_adjStock_ne (ps : List (ℕ × Product)) (pid pid' : ℕ) (delta : ℤ)
    (h : pid' ≠ pid) :
    lookupP (adjStock ps pid delta) pid' = lookupP ps pid' := by
  induction ps with
  | nil => rfl
  | cons pr rest ih =>
    cases hb : (pr.1 == pid') with
    | true =>
      have hx : pr.1 = pid' := by simpa using hb
      have hne : ¬ pr.1 = pid := fun hc => h (hx ▸ hc)
      simp only [adjStock, List.map_cons, if_neg hne, lookupP, List.find?_cons, hb]
    | false =>
      have hx : ¬ pr.1 = pid' := by simpa using hb
      by_cases hy : pr.1 = pid
      · have hb2 : (pid == pid') = false := by
          simpa using fun hc => h hc.symm
        simpa [lookupP, adjStock, List.find?_cons, hb, hy, hb2] using ih
      · simpa [lookupP, adjStock, List.find?_cons, hb, hy] using ih

theorem lookupP_foldl_adjStock_not_mem (f : OrderItem → ℤ) (items : List OrderItem)
    (ps : List (ℕ × Product)) (pid : ℕ)
    (h : pid ∉ items.map OrderItem.productId) :
    lookupP (items.foldl (fun a it => adjStock a it.productId (f it)) ps) pid
      = lookupP ps pid := by
  induction items generalizing ps with
  | nil => rfl
  | cons it rest ih =>
    simp only [List.map_cons, List.mem_cons, not_or] at h
    rw [List.foldl_cons, ih _ h.2, lookupP_adjStock_ne _ _ _ _ h.1]

theorem lookupP_foldl_adjStock_mem (f : OrderItem → ℤ) (items : List OrderItem)
    (ps : List (ℕ × Product)) (it : OrderItem) (hmem : it ∈ items)
    (hnd : (items.map OrderItem.productId).Nodup) :
    lookupP (items.foldl (fun a x => adjStock a x.productId (f x)) ps) it.productId
      = (lookupP ps it.productId).map (fun p => { p with stock := p.stock + f it }) := by
  induction items generalizing ps with
  | nil => cases hmem
  | cons hd rest ih =>
    rw [List.map_cons, List.nodup_cons] at hnd
    rw [List.foldl_cons]
    cases List.mem_cons.mp hmem with
    | inl heq =>
      subst heq
      rw [lookupP_foldl_adjStock_not_mem _ _ _ _ hnd.1, lookupP_adjStock_same]
    | inr hrest =>
      have hne : it.productId ≠ hd.productId := by
        intro hc
        exact hnd.1 (hc ▸ List.mem_map_of_mem OrderItem.productId hrest)
      rw [ih _ hrest hnd.2, lookupP_adjStock_ne _ _ _ _ hne]

theorem find?_setOrder (l : List Order) (oid : ℕ) (o o' : Order)
    (h : l.find? (fun x => x.id == oid) = some o) (hid : o'.id = o.id) :
    (l.map (fun x => if x.id = o'.id then o' else x)).find? (fun x => x.id == oid)
      = some o' := by
  have hoid : o.id = oid := by simpa using List.find?_some h
  induction l with
  | nil => simp at h
  | cons x xs ih =>
    cases hb : (x.id == oid) with
    | true =>
      have hx : x.id = oid := by simpa using hb
      simp only [List.find?_cons, hb, Option.some.injEq] at h
      subst h
      simp [List.find?_cons, hx, hid, hoid]
    | false =>
      have hx : ¬ x.id = oid := by simpa using hb
      simp only [List.find?_cons, hb] at h
      have hxo : ¬ x.id = o'.id := by
        rw [hid, hoid]
        exact hx
      simp only [List.map_cons, if_neg hxo]
      rw [List.find?_cons, hb]
      exact ih h

theorem findOrder_setOrder (w : World) (oid : ℕ) (o o' : Order)
    (h : findOrder w oid = some o) (hid : o'.id = o.id) :
    findOrder (setOrder w o') oid = some o' :=
  find?_setOrder w.orders oid o o' h hid

theorem find?_setCart (l : List (ℕ × Cart)) (uid : ℕ) (c : Cart) (e : ℕ × Cart)
    (h : l.find? (fun pr => pr.1 == uid) = some e) :
    (l.map (fun pr => if pr.1 = uid then (uid, c) else pr)).find?
        (fun pr => pr.1 == uid) = some (uid, c) := by
  induction l with
  | nil => simp at h
  | cons x xs ih =>
    cases hb : (x.1 == uid) with
    | true =>
      have hx : x.1 = uid := by simpa using hb
      simp [List.find?_cons, hx]
    | false =>
      have hx : ¬ x.1 = uid := by simpa using hb
      simp only [List.find?_cons, hb] at h
      simp only [List.map_cons, if_neg hx]
      rw [List.find?_cons, hb]
      exact ih h

theorem findCart_setCart (w : World) (uid : ℕ) (c c0 : Cart)
    (h : findCart w uid = some c0) :
    findCart (setCart w uid c) uid = some c := by
  unfold findCart at h
  obtain ⟨e, he, -⟩ := Option.map_eq_some'.mp h
  show (((setCart w uid c).carts.find? (fun pr => pr.1 == uid)).map Prod.snd)
      = some c
  rw [show (setCart w uid c).carts
      = w.carts.map (fun pr => if pr.1 = uid then (uid, c) else pr) from rfl,
    find?_setCart w.carts uid c e he]
  rfl

/-! ## Claim theorems -/

/-- All products referenced by the cart lines resolve (the populated
`item.product` is non-null). -/
def allProductsFound (w : World) (l : List CartItem) : Bool :=
  l.all (fun i => (findProduct w i.productId).isSome)

/-- Some cart line is blocked at checkout: its product is inactive or its
quantity exceeds the product's current stock. -/
def hasBlockedItem (w : World) (l : List CartItem) : Bool :=
  l.any (fun i =>
    match findProduct w i.productId with
    | none => false
    | some p => !p.isActive || p.stock < (i.quantity : ℤ))

theorem checkItems_blocked (w : World) (l : List CartItem)
    (hf : allProductsFound w l = true) (hb : hasBlockedItem w l = true) :
    ∃ e, checkItems w l = .error e ∧
      ((∃ pid, e = .productUnavailable pid) ∨
        (∃ pid, e = .insufficientStock pid)) := by
  induction l with
  | nil => simp [hasBlockedItem] at hb
  | cons i rest ih =>
    simp only [allProductsFound, List.all_cons, Bool.and_eq_true] at hf
    obtain ⟨p, hp⟩ := Option.isSome_iff_exists.mp hf.1
    by_cases hact : p.isActive = false
    · exact ⟨.productUnavailable i.productId, by
        simp only [checkItems, hp, if_pos hact], Or.inl ⟨i.productId, rfl⟩⟩
    · have hact' : p.isActive = true := by
        cases hpa : p.isActive
        · exact absurd hpa hact
        · rfl
      by_cases hstock : p.stock < (i.quantity : ℤ)
      · exact ⟨.insufficientStock i.productId, by
          simp only [checkItems, hp, if_neg hact, if_pos hstock],
          Or.inr ⟨i.productId, rfl⟩⟩
      · have hbr : hasBlockedItem w rest = true := by
          simp only [hasBlockedItem, List.any_cons, Bool.or_eq_true] at hb
          cases hb with
          | inl hhead =>
            rw [hp] at hhead
            simp [hact', hstock] at hhead
          | inr htail => exact htail
        obtain ⟨e, herr, hshape⟩ := ih (by simpa [allProductsFound] using hf.2) hbr
        refine ⟨e, ?_, hshape⟩
        simp only [checkItems, hp, if_neg hact, if_neg hstock, herr]

/-- C4: when the cart is missing or empty, or some line's product is
inactive, or some line's quantity exceeds current stock, `createOrder`
fails with EmptyCart / ProductUnavailable / InsufficientStock and returns
the world unchanged: no order row is written, no stock changes, and the
cart is untouched. -/
theorem createOrder_aborts_before_mutation (w : World) (uid : ℕ)
    (pm : PaymentMethod) (oid : ℕ)
    (hf : ∀ cart, findCart w uid = some cart → allProductsFound w cart.items = true)
    (hbad : ∀ cart, findCart w uid = some cart →
      cart.items.isEmpty = true ∨ hasBlockedItem w cart.items = true) :
    ∃ e, createOrder w uid pm oid = (some e, w) ∧
      (e = .emptyCart ∨ (∃ pid, e = .productUnavailable pid) ∨
        (∃ pid, e = .insufficientStock pid)) := by
  cases hcart : findCart w uid with
  | none =>
    exact ⟨.emptyCart, by simp only [createOrder, hcart], Or.inl rfl⟩
  | some cart =>
    cases hbad cart hcart with
    | inl hemp =>
      exact ⟨.emptyCart, by simp only [createOrder, hcart, hemp, if_pos], Or.inl rfl⟩
    | inr hblk =>
      obtain ⟨e, herr, hshape⟩ := checkItems_blocked w cart.items (hf cart hcart) hblk
      refine ⟨e, ?_, Or.inr hshape⟩
      have hemp : ¬ cart.items.isEmpty = true := by
        intro hc
        rw [List.isEmpty_iff.mp hc] at hblk
        simp [hasBlockedItem] at hblk
      simp only [createOrder, hcart, if_neg hemp, herr]

/-- The spec's insufficient-stock scenario: the cart of `specCart1` but
product 1 has stock 1 at checkout time. -/
def wStock : World :=
  { products := [(1, ⟨600, true, 1⟩), (2, ⟨50, true, 5⟩)]
    carts := [(1, specCart1)]
    orders := [] }

theorem createOrder_aborts_witness :
    ∃ e, createOrder wStock 1 .card 1 = (some e, wStock) ∧
      (e = .emptyCart ∨ (∃ pid, e = .productUnavailable pid) ∨
        (∃ pid, e = .insufficientStock pid)) :=
  createOrder_aborts_before_mutation wStock 1 .card 1
    (fun cart hcart => by
      have hc : specCart1 = cart := by
        simpa [wStock, findCart] using hcart
      rw [← hc]
      decide)
    (fun cart hcart => by
      have hc : specCart1 = cart := by
        simpa [wStock, findCart] using hcart
      rw [← hc]
      right
      decide)

/-- C5 counterexample: re-confirming payment on an order whose
`paymentStatus` is already `completed` is answered with the 400
"Order already paid" branch, not with a success response. -/
def paidOrder : Order :=
  { id := 1, userId := 1, items := [], subtotal := 0, tax := 0, shipping := 0
    discount := 0, total := 0, paymentMethod := .card
    paymentStatus := .completed, paymentId := none, orderStatus := .pending
    trackingNumber := none, deliveredAtSet := false }

def wPaid : World := { products := [], carts := [], orders := [paidOrder] }

theorem confirmPayment_repeat_is_error :
    confirmPayment wPaid 1 ⟨1, .user⟩ "pi_1" true = (.alreadyPaid, wPaid) ∧
    payHttpStatus .alreadyPaid = 400 ∧
    payHttpStatus .paymentSucceeded = 200 := by
  exact ⟨rfl, rfl, rfl⟩

/-- C5 (amended): invoking `confirmPayment` on an already-`completed`
order leaves every order unchanged but reports the HTTP 400 error
"Order already paid" instead of a no-op success. -/
theorem confirmPayment_already_paid (w : World) (oid : ℕ) (requester : User)
    (intentId : String) (ok : Bool) (o : Order)
    (ho : findOrder w oid = some o) (hown : o.userId = requester.id)
    (hpaid : o.paymentStatus = .completed) :
    confirmPayment w oid requester intentId ok = (.alreadyPaid, w) ∧
    payHttpStatus (confirmPayment w oid requester intentId ok).1 = 400 := by
  have h1 : confirmPayment w oid requester intentId ok = (.alreadyPaid, w) := by
    simp only [confirmPayment, ho]
    rw [if_neg (not_not_intro hown), if_pos hpaid]
  exact ⟨h1, by rw [h1]; rfl⟩

theorem confirmPayment_already_paid_witness :
    confirmPayment wPaid 1 ⟨1, .user⟩ "pi_1" true = (.alreadyPaid, wPaid) ∧
    payHttpStatus (confirmPayment wPaid 1 ⟨1, .user⟩ "pi_1" true).1 = 400 :=
  confirmPayment_already_paid wPaid 1 ⟨1, .user⟩ "pi_1" true paidOrder rfl rfl rfl

/-- C6 counterexample: an admin who does not own the order is rejected
with 403 by `PUT /api/orders/:id/cancel` — the handler compares only
`order.user` with `req.user._id` and never consults the role. -/
def ownOrder : Order :=
  { id := 1, userId := 1, items := [⟨1, 2, 600⟩], subtotal := 1200, tax := 216
    shipping := 0, discount := 0, total := 1416, paymentMethod := .cod
    paymentStatus := .pending, paymentId := none, orderStatus := .pending
    trackingNumber := none, deliveredAtSet := false }

def wOwn : World :=
  { products := [(1, ⟨600, true, 3⟩)], carts := [], orders := [ownOrder] }

theorem cancelOrder_admin_rejected :
    (⟨2, Role.admin⟩ : User).role = .admin ∧
    cancelOrder wOwn 1 ⟨2, .admin⟩ = (.notAuthorized, wOwn) := by
  exact ⟨rfl, rfl⟩

/-- C6 (amended): `cancelOrder` is permitted exactly when the requester's
id equals the order's owning user id; the requester's role is never
consulted, so any other requester — an admin included — fails with
Forbidden and the order collection is unchanged. -/
theorem cancelOrder_owner_only (w : World) (oid : ℕ) (requester : User)
    (o : Order) (ho : findOrder w oid = some o) :
    (o.userId ≠ requester.id → cancelOrder w oid requester = (.notAuthorized, w)) ∧
    (o.userId = requester.id → (cancelOrder w oid requester).1 ≠ .notAuthorized) := by
  constructor
  · intro hne
    simp only [cancelOrder, ho]
    rw [if_pos hne]
  · intro heq
    simp only [cancelOrder, ho]
    rw [if_neg (not_not_intro heq)]
    by_cases h1 : o.orderStatus = .delivered
    · rw [if_pos h1]
      intro hc
      cases hc
    · rw [if_neg h1]
      by_cases h2 : o.orderStatus = .cancelled
      · rw [if_pos h2]
        intro hc
        cases hc
      · rw [if_neg h2]
        intro hc
        cases hc

theorem cancelOrder_owner_only_witness :
    (cancelOrder wOwn 1 ⟨2, .admin⟩ = (.notAuthorized, wOwn)) ∧
    (cancelOrder wOwn 1 ⟨1, .user⟩).1 ≠ .notAuthorized :=
  ⟨(cancelOrder_owner_only wOwn 1 ⟨2, .admin⟩ ownOrder rfl).1 (by decide),
    (cancelOrder_owner_only wOwn 1 ⟨1, .user⟩ ownOrder rfl).2 rfl⟩

/-- C7: for a permitted requester, cancelling a `delivered` or `cancelled`
order fails (AlreadyDelivered / AlreadyCancelled) with the world — and so
every product's stock — unchanged; otherwise the order's status becomes
`cancelled` and every order line's product stock is incremented by that
line's quantity. -/
theorem cancelOrder_spec (w : World) (oid : ℕ) (requester : User) (o : Order)
    (ho : findOrder w oid = some o) (hown : o.userId = requester.id) :
    (o.orderStatus = .delivered →
        cancelOrder w oid requester = (.cannotCancelDelivered, w)) ∧
    (o.orderStatus = .cancelled →
        cancelOrder w oid requester = (.alreadyCancelled, w)) ∧
    (o.orderStatus ≠ .delivered → o.orderStatus ≠ .cancelled →
      (cancelOrder w oid requester).1 = .cancelled ∧
      findOrder (cancelOrder w oid requester).2 oid
        = some { o with orderStatus := .cancelled } ∧
      ((o.items.map OrderItem.productId).Nodup →
        ∀ it ∈ o.items,
          findProduct (cancelOrder w oid requester).2 it.productId
            = (findProduct w it.productId).map
                (fun p => { p with stock := p.stock + (it.quantity : ℤ) }))) := by
  refine ⟨?_, ?_, ?_⟩
  · intro h1
    simp only [cancelOrder, ho]
    rw [if_neg (not_not_intro hown), if_pos h1]
  · intro h2
    simp only [cancelOrder, ho]
    rw [if_neg (not_not_intro hown)]
    have h1 : ¬ o.orderStatus = .delivered := by
      rw [h2]
      intro hc
      cases hc
    rw [if_neg h1, if_pos h2]
  · intro h1 h2
    have hres : cancelOrder w oid requester
        = (.cancelled,
            { products := o.items.foldl
                (fun ps it => adjStock ps it.productId (it.quantity : ℤ))
                (setOrder w { o with orderStatus := .cancelled }).products
              carts := (setOrder w { o with orderStatus := .cancelled }).carts
              orders := (setOrder w { o with orderStatus := .cancelled }).orders }) := by
      simp only [cancelOrder, ho]
      rw [if_neg (not_not_intro hown), if_neg h1, if_neg h2]
    refine ⟨by rw [hres], ?_, ?_⟩
    · rw [hres]
      exact findOrder_setOrder w oid o _ ho rfl
    · intro hnd it hmem
      rw [hres]
      exact lookupP_foldl_adjStock_mem (fun x => (x.quantity : ℤ)) o.items
        (setOrder w { o with orderStatus := .cancelled }).products it hmem hnd

/-- A pending order on a stocked product, used to exercise successful
cancellation. -/
def pendOrder : Order :=
  { id := 1, userId := 1, items := [⟨1, 2, 600⟩], subtotal := 1200, tax := 216
    shipping := 0, discount := 0, total := 1416, paymentMethod := .cod
    paymentStatus := .pending, paymentId := none, orderStatus := .pending
    trackingNumber := none, deliveredAtSet := false }

def wCancel : World :=
  { products := [(1, ⟨600, true, 5⟩)], carts := [], orders := [pendOrder] }

theorem cancelOrder_spec_witness :
    (cancelOrder wCancel 1 ⟨1, .user⟩).1 = .cancelled ∧
    findOrder (cancelOrder wCancel 1 ⟨1, .user⟩).2 1
      = some { pendOrder with orderStatus := .cancelled } ∧
    findProduct (cancelOrder wCancel 1 ⟨1, .user⟩).2 1
      = (findProduct wCancel 1).map
          (fun p => { p with stock := p.stock + ((2 : ℕ) : ℤ) }) := by
  have h := (cancelOrder_spec wCancel 1 ⟨1, .user⟩ pendOrder rfl rfl).2.2
    (by decide) (by decide)
  exact ⟨h.1, h.2.1, h.2.2 (by decide) ⟨1, 2, 600⟩ (List.mem_singleton.mpr rfl)⟩

/-- C9: whenever `createOrder` succeeds, the user's cart is cleared: its
item list is empty and its coupon is removed. -/
theorem createOrder_clears_cart (w : World) (uid : ℕ) (pm : PaymentMethod)
    (oid : ℕ) (h : (createOrder w uid pm oid).1 = none) :
    findCart (createOrder w uid pm oid).2 uid
      = some { items := [], coupon := none } := by
  cases hcart : findCart w uid with
  | none => simp [createOrder, hcart] at h
  | some cart =>
    cases hemp : cart.items.isEmpty with
    | true => simp [createOrder, hcart, hemp] at h
    | false =>
      cases hchk : checkItems w cart.items with
      | error e => simp [createOrder, hcart, hemp, hchk] at h
      | ok pairs =>
        simp only [createOrder, hcart, hemp, Bool.false_eq_true, if_false, hchk]
        exact findCart_setCart _ uid _ cart hcart

/-- A one-line cart backed by sufficient stock, used to exercise a
successful checkout. -/
def wCheckout : World :=
  { products := [(1, ⟨600, true, 5⟩)]
    carts := [(1, { items := [⟨1, 2, 600⟩], coupon := none })]
    orders := [] }

theorem createOrder_clears_cart_witness :
    findCart (createOrder wCheckout 1 .cod 7).2 1
      = some { items := [], coupon := none } :=
  createOrder_clears_cart wCheckout 1 .cod 7 rfl

/-- C10: for any current order state and any of the nine enumerated
statuses, the admin-only `updateStatus` sets `orderStatus` to the new
status unconditionally — including moving a `delivered` order back to
`pending` — and leaves the product collection (hence every stock value)
unchanged; in particular, setting `cancelled` this way restores no stock. -/
theorem updateStatus_spec (w : World) (requester : User) (oid : ℕ)
    (st : OrderStatus) (tracking : Option String) (o : Order)
    (hadmin : requester.role = .admin) (ho : findOrder w oid = some o) :
    (updateStatus w requester oid st tracking).1 = .updated ∧
    (∃ o', findOrder (updateStatus w requester oid st tracking).2 oid = some o' ∧
        o'.orderStatus = st) ∧
    (updateStatus w requester oid st tracking).2.products = w.products := by
  have hne : ¬ requester.role ≠ Role.admin := not_not_intro hadmin
  have hres : updateStatus w requester oid st tracking
      = (.updated, setOrder w (applyStatusUpdate o st tracking)) := by
    simp only [updateStatus]
    rw [if_neg hne]
    simp only [ho]
  refine ⟨by rw [hres], ⟨applyStatusUpdate o st tracking, ?_, rfl⟩,
    by rw [hres]; rfl⟩
  rw [hres]
  exact findOrder_setOrder w oid o (applyStatusUpdate o st tracking) ho rfl

/-- A delivered order, used to exercise the unconstrained transition
`delivered → pending`. -/
def delOrder : Order :=
  { id := 3, userId := 4, items := [⟨1, 1, 100⟩], subtotal := 100, tax := 18
    shipping := 100, discount := 0, total := 218, paymentMethod := .cod
    paymentStatus := .completed, paymentId := none, orderStatus := .delivered
    trackingNumber := none, deliveredAtSet := true }

def wDel : World :=
  { products := [(1, ⟨100, true, 9⟩)], carts := [], orders := [delOrder] }

theorem updateStatus_spec_witness :
    (updateStatus wDel ⟨9, .admin⟩ 3 .pending none).1 = .updated ∧
    (∃ o', findOrder (updateStatus wDel ⟨9, .admin⟩ 3 .pending none).2 3
        = some o' ∧ o'.orderStatus = .pending) ∧
    (updateStatus wDel ⟨9, .admin⟩ 3 .pending none).2.products = wDel.products :=
  updateStatus_spec wDel ⟨9, .admin⟩ 3 .pending none delOrder rfl rfl

theorem find?_bumpFirst (l : List CartItem) (pid qty : ℕ) (i : CartItem)
    (h : l.find? (fun j => j.productId == pid) = some i) :
    (bumpFirst l pid qty).find? (fun j => j.productId == pid)
      = some { i with quantity := i.quantity + qty } := by
  induction l with
  | nil => simp at h
  | cons x xs ih =>
    cases hb : (x.productId == pid) with
    | true =>
      have hx : x.productId = pid := by simpa using hb
      simp only [List.find?_cons, hb, Option.some.injEq] at h
      subst h
      simp [bumpFirst, hx, List.find?_cons]
    | false =>
      have hx : ¬ x.productId = pid := by simpa using hb
      simp only [List.find?_cons, hb] at h
      simp only [bumpFirst, if_neg hx, List.find?_cons, hb]
      exact ih h

theorem find?_refreshItems (w : World) (l : List CartItem) (pid : ℕ) (p : Product)
    (hp : findProduct w pid = some p) (hact : p.isActive = true) (i : CartItem)
    (h : l.find? (fun j => j.productId == pid) = some i) :
    (refreshItems w l).find? (fun j => j.productId == pid)
      = some { i with price := p.price } := by
  induction l with
  | nil => simp at h
  | cons x xs ih =>
    cases hb : (x.productId == pid) with
    | true =>
      have hx : x.productId = pid := by simpa using hb
      simp only [List.find?_cons, hb, Option.some.injEq] at h
      subst h
      have hpx : findProduct w x.productId = some p := by
        rw [hx]
        exact hp
      simp only [refreshItems, List.filterMap_cons, hpx, hact, if_true]
      simp [List.find?_cons, hx]
    | false =>
      have hx : ¬ x.productId = pid := by simpa using hb
      simp only [List.find?_cons, hb] at h
      cases hfx : findProduct w x.productId with
      | none =>
        simp only [refreshItems, List.filterMap_cons, hfx, List.find?_cons, hb]
        exact ih h
      | some q =>
        cases hq : q.isActive with
        | true =>
          simp only [refreshItems, List.filterMap_cons, hfx, hq, if_true,
            List.find?_cons, hb]
          exact ih h
        | false =>
          simp only [refreshItems, List.filterMap_cons, hfx, hq,
            Bool.false_eq_true, if_false]
          exact ih h

theorem cartAddItem_products (w : World) (uid pid qty : ℕ) :
    (cartAddItem w uid pid qty).products = w.products := by
  unfold cartAddItem
  split
  · rfl
  · split <;> rfl

/-- A cart already holding ten units of product 1 — the per-line policy
maximum. -/
def bigCart : Cart := { items := [⟨1, 10, 100⟩], coupon := none }

def wAdd : World :=
  { products := [(1, ⟨100, true, 100⟩)], carts := [(1, bigCart)], orders := [] }

/-- C8 counterexample: adding quantity 10 of a product whose cart line
already holds 10 succeeds — the handler reports success and the line
quantity becomes 20, above the 1–10 per-line policy; it is neither
rejected as an error nor truncated to 10. -/
theorem addItem_line_cap_not_enforced :
    (addItemRoute wAdd 1 1 10).1 = .added ∧
    (∃ c', findCart (addItemRoute wAdd 1 1 10).2 1 = some c' ∧
      c'.items.map CartItem.quantity = [20]) := by
  refine ⟨rfl, ⟨{ items := [⟨1, 20, 100⟩], coupon := none }, ?_, rfl⟩⟩
  rfl

/-- C8 (amended): when the product is already in the cart, the existing
and new quantities add.  Only the per-request quantity is validated
against the 1–10 policy and current stock; the resulting line quantity is
not checked at all — whatever sum results is stored, with no error and no
truncation. -/
theorem addItem_quantities_add (w : World) (uid pid qty : ℕ) (p : Product)
    (cart : Cart) (i : CartItem)
    (hq1 : 1 ≤ qty) (hq2 : qty ≤ 10)
    (hp : findProduct w pid = some p) (hact : p.isActive = true)
    (hstock : (qty : ℤ) ≤ p.stock)
    (hcart : findCart w uid = some cart)
    (hitem : cart.items.find? (fun j => j.productId == pid) = some i) :
    (addItemRoute w uid pid qty).1 = .added ∧
    ∃ c', findCart (addItemRoute w uid pid qty).2 uid = some c' ∧
      c'.items.find? (fun j => j.productId == pid)
        = some ⟨i.productId, i.quantity + qty, p.price⟩ := by
  have hval : ¬ (qty < 1 ∨ 10 < qty) := by omega
  have hcond : ¬ p.stock < (qty : ℤ) := not_lt.mpr hstock
  have hact' : ¬ p.isActive = false := by simp [hact]
  have hpred : (i.productId == pid) = true := by
    simpa using List.find?_some hitem
  have hmem : i ∈ cart.items := List.mem_of_find?_eq_some hitem
  have hany : cart.items.any (fun j => j.productId == pid) = true := by
    rw [List.any_eq_true]
    exact ⟨i, hmem, hpred⟩
  have hw1 : cartAddItem w uid pid qty
      = setCart w uid { cart with items := bumpFirst cart.items pid qty } := by
    simp [cartAddItem, hcart, hany]
  have hc1 : findCart (cartAddItem w uid pid qty) uid
      = some { cart with items := bumpFirst cart.items pid qty } := by
    rw [hw1]
    exact findCart_setCart w uid _ cart hcart
  have hp1 : findProduct (cartAddItem w uid pid qty) pid = some p := by
    unfold findProduct
    rw [cartAddItem_products]
    exact hp
  have hroute : addItemRoute w uid pid qty
      = (.added, setCart (cartAddItem w uid pid qty) uid
          { cart with
            items :=
              refreshItems (cartAddItem w uid pid qty)
                (bumpFirst cart.items pid qty) }) := by
    simp only [addItemRoute, hp]
    rw [if_neg hval, if_neg hact', if_neg hcond]
    simp only [updateCartPrices, hc1]
  refine ⟨by rw [hroute], ⟨{ cart with
      items :=
        refreshItems (cartAddItem w uid pid qty)
          (bumpFirst cart.items pid qty) }, ?_, ?_⟩⟩
  · rw [hroute]
    exact findCart_setCart _ uid _ _ hc1
  · exact find?_refreshItems (cartAddItem w uid pid qty)
      (bumpFirst cart.items pid qty) pid p hp1 hact _
      (find?_bumpFirst cart.items pid qty i hitem)

theorem addItem_quantities_add_witness :
    (addItemRoute wAdd 1 1 10).1 = .added ∧
    ∃ c', findCart (addItemRoute wAdd 1 1 10).2 1 = some c' ∧
      c'.items.find? (fun j => j.productId == 1)
        = some ⟨1, 10 + 10, 100⟩ :=
  addItem_quantities_add wAdd 1 1 10 ⟨100, true, 100⟩ bigCart ⟨1, 10, 100⟩
    (by omega) (by omega) rfl rfl (by decide) rfl rfl

end Unitech
